import Mathlib

/-!
Shallow embedding of the Vulkan bootstrap pipeline in
`src/hello_triangle_app.h` (class `HelloTriangleApp`), together with proofs
of the behavioural properties of its pure decision logic: physical-device
selection, queue-family search, swapchain parameter negotiation
(surface format, present mode, extent, image count, sharing mode),
instance-extension aggregation, and teardown ordering.

Machine integers (`uint32_t`, `int`) are modelled as `Nat` / `Int`, with an
explicit `% 2^32` at the one place where unsigned overflow can occur
(the `minImageCount + 1` computation).  Runtime queries (SDL, Vulkan) are
modelled as explicit inputs; code paths that abort the process on failure
are modelled with `Option`.
-/

namespace VulkanTutorial

/-- Value of `std::numeric_limits<uint32_t>::max()`, Vulkan's "any extent" sentinel. -/
def UINT32_MAX : Nat := 4294967295

/-- Vulkan enum value 50, `VK_FORMAT_B8G8R8A8_SRGB`. -/
def VK_FORMAT_B8G8R8A8_SRGB : Nat := 50

/-- Vulkan enum value 0, `VK_COLOR_SPACE_SRGB_NONLINEAR_KHR`. -/
def VK_COLOR_SPACE_SRGB_NONLINEAR_KHR : Nat := 0

/-- Vulkan enum value 1, `VK_PRESENT_MODE_MAILBOX_KHR`. -/
def VK_PRESENT_MODE_MAILBOX_KHR : Nat := 1

/-- Vulkan enum value 2, `VK_PRESENT_MODE_FIFO_KHR`. -/
def VK_PRESENT_MODE_FIFO_KHR : Nat := 2

/-- Name constant `VK_EXT_DEBUG_UTILS_EXTENSION_NAME`. -/
def VK_EXT_DEBUG_UTILS_EXTENSION_NAME : String := "VK_EXT_debug_utils"

/-- Name constant `VK_KHR_PORTABILITY_ENUMERATION_EXTENSION_NAME`. -/
def VK_KHR_PORTABILITY_ENUMERATION_EXTENSION_NAME : String :=
  "VK_KHR_portability_enumeration"

/-- Name constant `VK_KHR_SWAPCHAIN_EXTENSION_NAME`. -/
def VK_KHR_SWAPCHAIN_EXTENSION_NAME : String := "VK_KHR_swapchain"

/-- The constant `device_extensions` list from the source (extension names
required of every candidate physical device). -/
def device_extensions : List String := [VK_KHR_SWAPCHAIN_EXTENSION_NAME]

/-- Model of `VkExtent2D`: a pair of `uint32_t` pixel dimensions. -/
structure VkExtent2D where
  width : Nat
  height : Nat
deriving DecidableEq

/-- Model of `VkSurfaceFormatKHR`: a pixel format together with a color space
(both Vulkan enum values, modelled as `Nat`). -/
structure VkSurfaceFormatKHR where
  format : Nat
  colorSpace : Nat
deriving DecidableEq

/-- The fields of `VkSurfaceCapabilitiesKHR` that the bootstrap reads. -/
structure VkSurfaceCapabilitiesKHR where
  minImageCount : Nat
  maxImageCount : Nat
  currentExtent : VkExtent2D
  minImageExtent : VkExtent2D
  maxImageExtent : VkExtent2D
deriving DecidableEq

/-- Model of `std::clamp(v, lo, hi)`: `lo` if `v < lo`, else `hi` if `hi < v`,
else `v` (exactly the C++ comparison order). -/
def stdClamp (v lo hi : Nat) : Nat :=
  if v < lo then lo else if hi < v then hi else v

/-- Embedding of `chooseSwapSurfaceFormat`: scan the supported formats in order and
return the first equal to the preferred B8G8R8A8-sRGB / sRGB-nonlinear
pair; if none matches, fall back to `formats[0]`.  The C++ indexes
`formats[0]` unconditionally at the end (after a debug assert that the
list is non-empty); the empty-list case is modelled as `none`. -/
def chooseSwapSurfaceFormat (formats : List VkSurfaceFormatKHR) :
    Option VkSurfaceFormatKHR :=
  match formats.find? (fun f =>
      f.format == VK_FORMAT_B8G8R8A8_SRGB &&
      f.colorSpace == VK_COLOR_SPACE_SRGB_NONLINEAR_KHR) with
  | some f => some f
  | none => formats.head?

/-- Embedding of `chooseSwapPresentMode`: return mailbox if it occurs anywhere in the
supported list (`std::find`), else the FIFO fallback. -/
def chooseSwapPresentMode (present_modes : List Nat) : Nat :=
  if VK_PRESENT_MODE_MAILBOX_KHR ∈ present_modes then
    VK_PRESENT_MODE_MAILBOX_KHR
  else
    VK_PRESENT_MODE_FIFO_KHR

/-- Embedding of `chooseSwapExtent`: if `caps.currentExtent.width` differs from the
`uint32_t` sentinel, return `caps.currentExtent` verbatim; otherwise build
the extent from the drawable size reported by SDL, clamping each axis into
`[minImageExtent, maxImageExtent]`.  The drawable size is an explicit
input (the C++ queries `SDL_GL_GetDrawableSize`). -/
def chooseSwapExtent (caps : VkSurfaceCapabilitiesKHR)
    (drawableWidth drawableHeight : Nat) : VkExtent2D :=
  if caps.currentExtent.width ≠ UINT32_MAX then
    caps.currentExtent
  else
    { width := stdClamp drawableWidth caps.minImageExtent.width
        caps.maxImageExtent.width,
      height := stdClamp drawableHeight caps.minImageExtent.height
        caps.maxImageExtent.height }

/-- The requested swapchain image count computed at the top of
`createSwapChain`: `minImageCount + 1` in `uint32_t` arithmetic, then
clamped down with `std::min` to `maxImageCount` when the latter is
nonzero. -/
def swapchainImageCount (caps : VkSurfaceCapabilitiesKHR) : Nat :=
  let image_count := (caps.minImageCount + 1) % 2 ^ 32
  if caps.maxImageCount > 0 then
    Nat.min image_count caps.maxImageCount
  else
    image_count

/-- Model of `QueueFamilyIndices`: the cached mapping, `int` fields with the `-1`
"unresolved" sentinel, exactly as in the source. -/
structure QueueFamilyIndices where
  gfx_family : Int := -1
  present_family : Int := -1
deriving DecidableEq

/-- Embedding of `QueueFamilyIndices::isComplete`. -/
def QueueFamilyIndices.isComplete (q : QueueFamilyIndices) : Bool :=
  q.gfx_family != -1 && q.present_family != -1

/-- Model of `VkSharingMode` (only the two values the source uses). -/
inductive VkSharingMode where
  | exclusive
  | concurrent
deriving DecidableEq

/-- The sharing-related fields of `VkSwapchainCreateInfoKHR` that
`createSwapChain` fills in:  sharing mode, `queueFamilyIndexCount`, and
`pQueueFamilyIndices` (a null pointer modelled as `none`). -/
structure SwapchainSharingInfo where
  imageSharingMode : VkSharingMode
  queueFamilyIndexCount : Nat
  pQueueFamilyIndices : Option (List Nat)
deriving DecidableEq

/-- Model of `static_cast<uint32_t>` of a C++ `int`: reduce modulo `2^32`
(negative values wrap). -/
def intToU32 (i : Int) : Nat := (i % (2 ^ 32)).toNat

/-- The sharing-mode branch of `createSwapChain`: distinct graphics and
present families select concurrent sharing over the two-element array
`{gfx_family, present_family}` (each `static_cast<uint32_t>`); identical
families select exclusive sharing with count 0 and a null pointer. -/
def swapchainSharingInfo (q : QueueFamilyIndices) : SwapchainSharingInfo :=
  if q.gfx_family ≠ q.present_family then
    { imageSharingMode := .concurrent,
      queueFamilyIndexCount := 2,
      pQueueFamilyIndices := some [intToU32 q.gfx_family,
        intToU32 q.present_family] }
  else
    { imageSharingMode := .exclusive,
      queueFamilyIndexCount := 0,
      pQueueFamilyIndices := none }

/-- Embedding of `getRequiredExtensions`: start from the SDL-reported instance
extensions, append the portability-enumeration extension when compiled for
Apple platforms, then append the debug-utils extension when validation
layers are enabled.  The platform condition (`#if __APPLE__`) is an
explicit input. -/
def getRequiredExtensions (sdlExts : List String)
    (applePlatform enable_validation_layers : Bool) : List String :=
  let ext_names :=
    if applePlatform then
      sdlExts ++ [VK_KHR_PORTABILITY_ENUMERATION_EXTENSION_NAME]
    else
      sdlExts
  if enable_validation_layers then
    ext_names ++ [VK_EXT_DEBUG_UTILS_EXTENSION_NAME]
  else
    ext_names

/-- One entry of the `vkGetPhysicalDeviceQueueFamilyProperties` answer, as
the bootstrap observes it: whether `queueFlags` has `VK_QUEUE_GRAPHICS_BIT`
set, and whether `vkGetPhysicalDeviceSurfaceSupportKHR` reports presentation
support for this family index against the app's surface. -/
structure QueueFamily where
  graphics : Bool
  present : Bool
deriving DecidableEq

/-- The loop body of `findQueueFamilies`: at index `i`, overwrite
`gfx_family` when the family has the graphics bit, then overwrite
`present_family` when it has present support, then break out of the loop as
soon as the record is complete; otherwise continue with `i + 1`. -/
def findQueueFamiliesLoop :
    List QueueFamily → Nat → QueueFamilyIndices → QueueFamilyIndices
  | [], _, indices => indices
  | f :: fs, i, indices =>
    let ind1 :=
      if f.graphics then { indices with gfx_family := Int.ofNat i } else indices
    let ind2 :=
      if f.present then { ind1 with present_family := Int.ofNat i } else ind1
    if ind2.isComplete then ind2 else findQueueFamiliesLoop fs (i + 1) ind2

/-- Embedding of `findQueueFamilies`: scan the device's queue families from index 0 with
both indices unresolved. -/
def findQueueFamilies (q_families : List QueueFamily) : QueueFamilyIndices :=
  findQueueFamiliesLoop q_families 0 {}

/-- Model of `std::includes(first1, last1, first2, last2)` on `<`-ordered string
ranges, exactly the standard algorithm: walk both sorted sequences in
lockstep; fail when the first range is exhausted or the next needed element
is smaller than the current element of the first range. -/
def sortedIncludes : List String → List String → Bool
  | _, [] => true
  | [], _ :: _ => false
  | a :: as, b :: bs =>
    if b < a then false
    else if a < b then sortedIncludes as (b :: bs)
    else sortedIncludes as bs

/-- Embedding of `checkDeviceExtensionSupport`: sort the available extension names and a
copy of the required names (`std::sort` is modelled by `insertionSort`,
which produces the same `≤`-sorted permutation), then run `std::includes`.
-/
def checkDeviceExtensionSupport (available_exts : List String) : Bool :=
  sortedIncludes (List.insertionSort (· ≤ ·) available_exts)
    (List.insertionSort (· ≤ ·) device_extensions)

/-- Everything the suitability checks observe about one enumerated
`VkPhysicalDevice` (relative to the app's fixed surface): its queue-family
properties, its device-extension names, and the surface formats and present
modes from `querySwapChainSupport`. -/
structure PhysicalDevice where
  queueFamilies : List QueueFamily
  extensions : List String
  formats : List VkSurfaceFormatKHR
  presentModes : List Nat
deriving DecidableEq

/-- Embedding of `isDeviceSuitable`: complete queue-family indices, supported device
extensions, and non-empty format and present-mode lists (the caching of
`q_indices_` / `swapchain_support_` on success does not affect the
verdict). -/
def isDeviceSuitable (device : PhysicalDevice) : Bool :=
  (findQueueFamilies device.queueFamilies).isComplete &&
  checkDeviceExtensionSupport device.extensions &&
  !device.formats.isEmpty &&
  !device.presentModes.isEmpty

/-- Embedding of `pickPhysicalDevice`: walk the enumerated devices in order and keep the
first suitable one (`break` on the first hit); the trailing
`ASSERT(physical_device_)` — no suitable device — is modelled as `none`. -/
def pickPhysicalDevice (devices : List PhysicalDevice) :
    Option PhysicalDevice :=
  devices.find? isDeviceSuitable

/-- One observable action of the `cleanup` teardown sequence.  Image views
are identified by their position in `swapchain_views_`. -/
inductive TeardownEvent where
  | destroyImageView (i : Nat)
  | destroySwapchain
  | destroyDevice
  | destroyMessenger
  | destroySurface
  | destroyInstance
  | destroyWindow
  | quitVideo
deriving DecidableEq

/-- Embedding of `cleanup` as the sequence of destruction calls it issues: every image
view (in container order), the swapchain, the logical device, the debug
messenger only when validation layers are enabled, the surface, the
instance, the SDL window, and `SDL_Quit`.  `numImageViews` is the length of
`swapchain_views_`. -/
def cleanup (numImageViews : Nat) (enable_validation_layers : Bool) :
    List TeardownEvent :=
  (List.range numImageViews).map TeardownEvent.destroyImageView ++
  [TeardownEvent.destroySwapchain, TeardownEvent.destroyDevice] ++
  (if enable_validation_layers then [TeardownEvent.destroyMessenger] else []) ++
  [TeardownEvent.destroySurface, TeardownEvent.destroyInstance,
   TeardownEvent.destroyWindow, TeardownEvent.quitVideo]

/-! Specification-side helper definitions.

These are written from the spec's vocabulary (last matching index, scanned
prefix, suitability conditions) and are compared against the embedded code
by the theorems below. -/

/-- Index of the last element of `l` satisfying `p` (0-based), `none` when
no element matches. -/
def lastMatchIdx (p : QueueFamily → Bool) : List QueueFamily → Option Nat
  | [] => none
  | f :: fs =>
    match lastMatchIdx p fs with
    | some j => some (j + 1)
    | none => if p f then some 0 else none

/-- Length of the prefix the scan examines: families are consumed one at a
time until a graphics-capable and a present-capable family have both been
seen (the flags record capabilities seen so far); if that never happens the
whole list is examined. -/
def scanLength (gSeen pSeen : Bool) : List QueueFamily → Nat
  | [] => 0
  | f :: fs =>
    if (gSeen || f.graphics) && (pSeen || f.present) then 1
    else 1 + scanLength (gSeen || f.graphics) (pSeen || f.present) fs

/-- Turn an optional matching position (relative to absolute start index
`i`) into the recorded `int` index, keeping `old` when there is no match. -/
def resolvedIdx (old : Int) (i : Nat) : Option Nat → Int
  | some j => Int.ofNat (i + j)
  | none => old

/-- The device-suitability conditions as the spec states them: resolved
graphics and present families, the required extension names a multiset
subset of the available names (case-exact string comparison), and non-empty
surface-format and present-mode lists. -/
def suitableDeviceSpec (device : PhysicalDevice) : Prop :=
  (findQueueFamilies device.queueFamilies).gfx_family ≠ -1 ∧
  (findQueueFamilies device.queueFamilies).present_family ≠ -1 ∧
  (∀ s : String, device_extensions.count s ≤ device.extensions.count s) ∧
  device.formats ≠ [] ∧
  device.presentModes ≠ []

/-! Swapchain negotiation policies. -/

/-- Claim C2: for every non-empty surface-format list, `chooseSwapSurfaceFormat`
returns the B8G8R8A8-sRGB / sRGB-nonlinear pair whenever it occurs anywhere
in the list, and otherwise returns the first element in input order. -/
theorem chooseSwapSurfaceFormat_spec (formats : List VkSurfaceFormatKHR)
    (h : formats ≠ []) :
    ((⟨VK_FORMAT_B8G8R8A8_SRGB, VK_COLOR_SPACE_SRGB_NONLINEAR_KHR⟩ :
        VkSurfaceFormatKHR) ∈ formats →
      chooseSwapSurfaceFormat formats =
        some ⟨VK_FORMAT_B8G8R8A8_SRGB, VK_COLOR_SPACE_SRGB_NONLINEAR_KHR⟩) ∧
    ((⟨VK_FORMAT_B8G8R8A8_SRGB, VK_COLOR_SPACE_SRGB_NONLINEAR_KHR⟩ :
        VkSurfaceFormatKHR) ∉ formats →
      chooseSwapSurfaceFormat formats = formats.head?) := by
  unfold chooseSwapSurfaceFormat
  cases hfind : formats.find? (fun f =>
      f.format == VK_FORMAT_B8G8R8A8_SRGB &&
      f.colorSpace == VK_COLOR_SPACE_SRGB_NONLINEAR_KHR) with
  | none =>
    rw [List.find?_eq_none] at hfind
    constructor
    · intro hmem
      exact absurd (by simp : ((⟨VK_FORMAT_B8G8R8A8_SRGB,
          VK_COLOR_SPACE_SRGB_NONLINEAR_KHR⟩ : VkSurfaceFormatKHR).format ==
          VK_FORMAT_B8G8R8A8_SRGB &&
          (⟨VK_FORMAT_B8G8R8A8_SRGB, VK_COLOR_SPACE_SRGB_NONLINEAR_KHR⟩ :
            VkSurfaceFormatKHR).colorSpace ==
            VK_COLOR_SPACE_SRGB_NONLINEAR_KHR) = true)
        (by simpa using hfind _ hmem)
    · intro _
      rfl
  | some f =>
    have hpred := List.find?_some hfind
    have hmem := List.mem_of_find?_eq_some hfind
    simp only [Bool.and_eq_true, beq_iff_eq] at hpred
    have hf : f = ⟨VK_FORMAT_B8G8R8A8_SRGB, VK_COLOR_SPACE_SRGB_NONLINEAR_KHR⟩ := by
      cases f
      simp_all
    subst hf
    constructor
    · intro _
      rfl
    · intro hnot
      exact absurd hmem hnot

/-- Witness for C2 at concrete inputs: a list containing the preferred pair
in second position, and a list without it. -/
theorem chooseSwapSurfaceFormat_spec_witness :
    chooseSwapSurfaceFormat [⟨0, 0⟩, ⟨50, 0⟩] = some ⟨50, 0⟩ ∧
    chooseSwapSurfaceFormat [⟨0, 0⟩, ⟨1, 1⟩] =
      ([⟨0, 0⟩, ⟨1, 1⟩] : List VkSurfaceFormatKHR).head? :=
  ⟨(chooseSwapSurfaceFormat_spec [⟨0, 0⟩, ⟨50, 0⟩] (by decide)).1 (by decide),
   (chooseSwapSurfaceFormat_spec [⟨0, 0⟩, ⟨1, 1⟩] (by decide)).2 (by decide)⟩

/-- Claim C6: for every non-empty present-mode list, `chooseSwapPresentMode`
returns mailbox if it occurs anywhere in the list and the FIFO fallback
otherwise. -/
theorem chooseSwapPresentMode_spec (present_modes : List Nat)
    (h : present_modes ≠ []) :
    (VK_PRESENT_MODE_MAILBOX_KHR ∈ present_modes →
      chooseSwapPresentMode present_modes = VK_PRESENT_MODE_MAILBOX_KHR) ∧
    (VK_PRESENT_MODE_MAILBOX_KHR ∉ present_modes →
      chooseSwapPresentMode present_modes = VK_PRESENT_MODE_FIFO_KHR) := by
  unfold chooseSwapPresentMode
  constructor
  · intro hmem
    rw [if_pos hmem]
  · intro hnot
    rw [if_neg hnot]

/-- Witness for C6: mailbox (mode 1) present in one list, absent from the
other. -/
theorem chooseSwapPresentMode_spec_witness :
    chooseSwapPresentMode [2, 1] = VK_PRESENT_MODE_MAILBOX_KHR ∧
    chooseSwapPresentMode [2, 0] = VK_PRESENT_MODE_FIFO_KHR :=
  ⟨(chooseSwapPresentMode_spec [2, 1] (by decide)).1 (by decide),
   (chooseSwapPresentMode_spec [2, 0] (by decide)).2 (by decide)⟩

/-- Claim C3 counterexample: a capabilities record whose current extent is not
the sentinel extent (its height is 100), yet `chooseSwapExtent` does not
return it verbatim — the code branches on the width component alone, which
here equals the sentinel, so the drawable size is clamped and returned. -/
theorem chooseSwapExtent_pair_sentinel_counterexample :
    (⟨UINT32_MAX, 100⟩ : VkExtent2D) ≠ ⟨UINT32_MAX, UINT32_MAX⟩ ∧
    chooseSwapExtent ⟨2, 0, ⟨UINT32_MAX, 100⟩, ⟨1, 1⟩, ⟨2000, 2000⟩⟩ 800 600 ≠
      ⟨UINT32_MAX, 100⟩ ∧
    chooseSwapExtent ⟨2, 0, ⟨UINT32_MAX, 100⟩, ⟨1, 1⟩, ⟨2000, 2000⟩⟩ 800 600 =
      ⟨800, 600⟩ := by
  refine ⟨by decide, by decide, by decide⟩

/-- Claim C3 as amended: the branch is decided by the width component of the
current extent.  When `currentExtent.width` equals the sentinel, the result
is the per-axis clamp of the drawable size into
`[minImageExtent, maxImageExtent]`; when it differs from the sentinel, the
current extent is returned verbatim, independent of the drawable size. -/
theorem chooseSwapExtent_spec (caps : VkSurfaceCapabilitiesKHR)
    (drawableWidth drawableHeight : Nat) :
    (caps.currentExtent.width = UINT32_MAX →
      chooseSwapExtent caps drawableWidth drawableHeight =
        ⟨stdClamp drawableWidth caps.minImageExtent.width
            caps.maxImageExtent.width,
          stdClamp drawableHeight caps.minImageExtent.height
            caps.maxImageExtent.height⟩) ∧
    (caps.currentExtent.width ≠ UINT32_MAX →
      chooseSwapExtent caps drawableWidth drawableHeight =
        caps.currentExtent) := by
  unfold chooseSwapExtent
  constructor
  · intro hw
    rw [if_neg (by simp [hw])]
  · intro hw
    rw [if_pos hw]

/-- Witness for the amended C3: a sentinel-width record clamps the
drawable size, a non-sentinel record is returned verbatim. -/
theorem chooseSwapExtent_spec_witness :
    chooseSwapExtent ⟨2, 0, ⟨UINT32_MAX, UINT32_MAX⟩, ⟨10, 20⟩, ⟨700, 500⟩⟩
        800 600 =
      ⟨stdClamp 800 10 700, stdClamp 600 20 500⟩ ∧
    chooseSwapExtent ⟨2, 0, ⟨640, 480⟩, ⟨10, 20⟩, ⟨700, 500⟩⟩ 800 600 =
      ⟨640, 480⟩ :=
  ⟨(chooseSwapExtent_spec ⟨2, 0, ⟨UINT32_MAX, UINT32_MAX⟩, ⟨10, 20⟩,
      ⟨700, 500⟩⟩ 800 600).1 rfl,
   (chooseSwapExtent_spec ⟨2, 0, ⟨640, 480⟩, ⟨10, 20⟩, ⟨700, 500⟩⟩ 800
      600).2 (by decide)⟩

/-- Claim C10: `chooseSwapExtent` inspects only the width component of the
current extent; whenever that width differs from the sentinel the whole
current extent — height included — is returned verbatim. -/
theorem chooseSwapExtent_width_decides (caps : VkSurfaceCapabilitiesKHR)
    (drawableWidth drawableHeight : Nat)
    (h : caps.currentExtent.width ≠ UINT32_MAX) :
    chooseSwapExtent caps drawableWidth drawableHeight = caps.currentExtent := by
  unfold chooseSwapExtent
  rw [if_pos h]

/-- Witness for C10 at a record whose current-extent height equals the
sentinel while its width does not: the extent is still returned verbatim. -/
theorem chooseSwapExtent_width_decides_witness :
    chooseSwapExtent ⟨2, 0, ⟨640, UINT32_MAX⟩, ⟨1, 1⟩, ⟨2000, 2000⟩⟩ 800 600 =
      (⟨2, 0, ⟨640, UINT32_MAX⟩, ⟨1, 1⟩, ⟨2000, 2000⟩⟩ :
        VkSurfaceCapabilitiesKHR).currentExtent :=
  chooseSwapExtent_width_decides _ 800 600 (by decide)

/-- Claim C4: distinct cached graphics/present families yield concurrent sharing
over exactly `[gfx_family, present_family]` (count 2); equal families yield
exclusive sharing with count 0 and a null index pointer. -/
theorem swapchainSharingInfo_spec (q : QueueFamilyIndices) :
    (q.gfx_family ≠ q.present_family →
      swapchainSharingInfo q =
        ⟨.concurrent, 2,
          some [intToU32 q.gfx_family, intToU32 q.present_family]⟩) ∧
    (q.gfx_family = q.present_family →
      swapchainSharingInfo q = ⟨.exclusive, 0, none⟩) := by
  unfold swapchainSharingInfo
  constructor
  · intro hne
    rw [if_pos hne]
  · intro heq
    rw [if_neg (by simp [heq])]

/-- Witness for C4 with families 0/1 (concurrent) and 2/2 (exclusive). -/
theorem swapchainSharingInfo_spec_witness :
    swapchainSharingInfo ⟨0, 1⟩ =
      ⟨.concurrent, 2, some [intToU32 0, intToU32 1]⟩ ∧
    swapchainSharingInfo ⟨2, 2⟩ = ⟨.exclusive, 0, none⟩ :=
  ⟨(swapchainSharingInfo_spec ⟨0, 1⟩).1 (by decide),
   (swapchainSharingInfo_spec ⟨2, 2⟩).2 rfl⟩

/-- Claim C7: the requested image count is `minImageCount + 1` (in `uint32_t`
arithmetic) when `maxImageCount` is zero, and the minimum of that and
`maxImageCount` when the latter is nonzero; in particular `min = 2,
max = 0` requests 3 and `min = 2, max = 2` requests 2. -/
theorem swapchainImageCount_spec (caps : VkSurfaceCapabilitiesKHR) :
    (caps.maxImageCount = 0 →
      swapchainImageCount caps = (caps.minImageCount + 1) % 2 ^ 32) ∧
    (caps.maxImageCount ≠ 0 →
      swapchainImageCount caps =
        Nat.min ((caps.minImageCount + 1) % 2 ^ 32) caps.maxImageCount) ∧
    swapchainImageCount ⟨2, 0, ⟨0, 0⟩, ⟨0, 0⟩, ⟨0, 0⟩⟩ = 3 ∧
    swapchainImageCount ⟨2, 2, ⟨0, 0⟩, ⟨0, 0⟩, ⟨0, 0⟩⟩ = 2 := by
  refine ⟨?_, ?_, by decide, by decide⟩
  · intro hmax
    simp [swapchainImageCount, hmax]
  · intro hmax
    simp [swapchainImageCount, Nat.pos_of_ne_zero hmax]

/-- Witness for C7 at `min = 5, max = 0` and `min = 5, max = 4`. -/
theorem swapchainImageCount_spec_witness :
    swapchainImageCount ⟨5, 0, ⟨0, 0⟩, ⟨0, 0⟩, ⟨0, 0⟩⟩ = (5 + 1) % 2 ^ 32 ∧
    swapchainImageCount ⟨5, 4, ⟨0, 0⟩, ⟨0, 0⟩, ⟨0, 0⟩⟩ =
      Nat.min ((5 + 1) % 2 ^ 32) 4 :=
  ⟨(swapchainImageCount_spec ⟨5, 0, ⟨0, 0⟩, ⟨0, 0⟩, ⟨0, 0⟩⟩).1 rfl,
   (swapchainImageCount_spec ⟨5, 4, ⟨0, 0⟩, ⟨0, 0⟩, ⟨0, 0⟩⟩).2.1 (by decide)⟩

/-! Instance-extension aggregation. -/

/-- Claim C8 counterexample: when the window system itself reports the
debug-utils extension, the final list contains it even with diagnostics
disabled, so the claim's universal "does not contain it at all" fails. -/
theorem getRequiredExtensions_counterexample :
    VK_EXT_DEBUG_UTILS_EXTENSION_NAME ∈
      getRequiredExtensions [VK_EXT_DEBUG_UTILS_EXTENSION_NAME] false false := by
  decide

/-- Claim C8 as amended: for every window-system extension list that does not
itself contain the debug-utils extension, the final list contains
debug-utils exactly once when validation layers are enabled and not at all
when disabled, and every window-system extension is retained. -/
theorem getRequiredExtensions_spec (sdlExts : List String)
    (applePlatform enable : Bool)
    (h : VK_EXT_DEBUG_UTILS_EXTENSION_NAME ∉ sdlExts) :
    (getRequiredExtensions sdlExts applePlatform enable).count
        VK_EXT_DEBUG_UTILS_EXTENSION_NAME = (if enable then 1 else 0) ∧
    ∀ e ∈ sdlExts, e ∈ getRequiredExtensions sdlExts applePlatform enable := by
  have hcount : sdlExts.count "VK_EXT_debug_utils" = 0 :=
    List.count_eq_zero.mpr h
  constructor
  · cases applePlatform <;> cases enable <;>
      simp [getRequiredExtensions, hcount, List.count_append,
        List.count_singleton', VK_EXT_DEBUG_UTILS_EXTENSION_NAME,
        VK_KHR_PORTABILITY_ENUMERATION_EXTENSION_NAME]
  · intro e he
    cases applePlatform <;> cases enable <;>
      simp [getRequiredExtensions, he]

/-- Witness for the amended C8: with diagnostics enabled the final list
contains debug-utils exactly once over a surface-only window-system list.
-/
theorem getRequiredExtensions_spec_witness :
    (getRequiredExtensions ["VK_KHR_surface"] false true).count
        VK_EXT_DEBUG_UTILS_EXTENSION_NAME = (if true then 1 else 0) :=
  (getRequiredExtensions_spec ["VK_KHR_surface"] false true (by decide)).1

/-! Teardown ordering. -/

/-- Claim C9: the teardown trace destroys the image views first, then the
swapchain, the logical device, the messenger only when validation layers
are enabled, the surface, the instance, the window, and finally quits the
windowing subsystem; with diagnostics disabled no messenger-destruction
event occurs at all. -/
theorem cleanup_spec (numImageViews : Nat) :
    cleanup numImageViews true =
      (List.range numImageViews).map TeardownEvent.destroyImageView ++
        [.destroySwapchain, .destroyDevice, .destroyMessenger,
         .destroySurface, .destroyInstance, .destroyWindow, .quitVideo] ∧
    cleanup numImageViews false =
      (List.range numImageViews).map TeardownEvent.destroyImageView ++
        [.destroySwapchain, .destroyDevice,
         .destroySurface, .destroyInstance, .destroyWindow, .quitVideo] ∧
    TeardownEvent.destroyMessenger ∉ cleanup numImageViews false := by
  refine ⟨by simp [cleanup], by simp [cleanup], ?_⟩
  simp [cleanup]

/-! Queue-family search. -/

theorem ofNat_bne_neg_one (i : Nat) : (Int.ofNat i != -1) = true := by
  simp only [bne_iff_ne, ne_eq, Int.ofNat_eq_natCast]
  omega

theorem updated_bne (i : Nat) (old : Int) (b : Bool) :
    ((if b then Int.ofNat i else old) != -1) = (old != -1 || b) := by
  cases b <;> simp [ofNat_bne_neg_one i]

/-- One unfolding step of the scan loop, with the two sequential field
updates fused into a single record. -/
theorem findQueueFamiliesLoop_cons (f : QueueFamily) (fs : List QueueFamily)
    (i : Nat) (acc : QueueFamilyIndices) :
    findQueueFamiliesLoop (f :: fs) i acc =
      if ((if f.graphics then Int.ofNat i else acc.gfx_family) != -1 &&
          (if f.present then Int.ofNat i else acc.present_family) != -1) then
        ⟨if f.graphics then Int.ofNat i else acc.gfx_family,
         if f.present then Int.ofNat i else acc.present_family⟩
      else
        findQueueFamiliesLoop fs (i + 1)
          ⟨if f.graphics then Int.ofNat i else acc.gfx_family,
           if f.present then Int.ofNat i else acc.present_family⟩ := by
  rw [findQueueFamiliesLoop]
  cases hg : f.graphics <;> cases hp : f.present <;>
    simp [hg, hp, QueueFamilyIndices.isComplete]

theorem resolvedIdx_cons (p : QueueFamily → Bool) (f : QueueFamily)
    (rest : List QueueFamily) (old : Int) (i : Nat) :
    resolvedIdx old i (lastMatchIdx p (f :: rest)) =
      resolvedIdx (if p f then Int.ofNat i else old) (i + 1)
        (lastMatchIdx p rest) := by
  cases hr : lastMatchIdx p rest with
  | some j =>
    simp only [lastMatchIdx, hr, resolvedIdx]
    have harith : i + (j + 1) = i + 1 + j := by omega
    rw [harith]
  | none =>
    cases hpf : p f <;> simp [lastMatchIdx, hr, resolvedIdx, hpf]

/-- Full characterization of the scan loop: starting at absolute index `i`
with partial state `acc`, the loop examines the prefix of length
`scanLength` (families until both capabilities have been seen, counting
capabilities already recorded in `acc`) and records, per capability, the
absolute index of the last matching family in that prefix, keeping the
incoming value when there is no match. -/
theorem findQueueFamiliesLoop_eq (l : List QueueFamily) :
    ∀ (i : Nat) (acc : QueueFamilyIndices),
      findQueueFamiliesLoop l i acc =
        { gfx_family :=
            resolvedIdx acc.gfx_family i
              (lastMatchIdx (fun f => f.graphics)
                (l.take (scanLength (acc.gfx_family != -1)
                  (acc.present_family != -1) l))),
          present_family :=
            resolvedIdx acc.present_family i
              (lastMatchIdx (fun f => f.present)
                (l.take (scanLength (acc.gfx_family != -1)
                  (acc.present_family != -1) l))) } := by
  induction l with
  | nil =>
    intro i acc
    simp [findQueueFamiliesLoop, scanLength, lastMatchIdx, resolvedIdx]
  | cons f fs ih =>
    intro i acc
    rw [findQueueFamiliesLoop_cons, scanLength, updated_bne, updated_bne]
    by_cases hcond : ((acc.gfx_family != -1 || f.graphics) &&
        (acc.present_family != -1 || f.present)) = true
    · rw [if_pos hcond, if_pos hcond]
      cases hg : f.graphics <;> cases hp : f.present <;>
        simp [hg, hp, lastMatchIdx, resolvedIdx]
    · rw [if_neg hcond, if_neg hcond, ih]
      dsimp only
      rw [updated_bne, updated_bne]
      rw [Nat.add_comm 1 (scanLength (acc.gfx_family != -1 || f.graphics)
        (acc.present_family != -1 || f.present) fs)]
      rw [List.take_succ_cons]
      rw [resolvedIdx_cons, resolvedIdx_cons]

theorem scanLength_cons_eq (g p : Bool) (f : QueueFamily)
    (fs : List QueueFamily) : ∃ k, scanLength g p (f :: fs) = k + 1 := by
  rw [scanLength]
  by_cases hcond : ((g || f.graphics) && (p || f.present)) = true
  · exact ⟨0, by rw [if_pos hcond]⟩
  · exact ⟨scanLength (g || f.graphics) (p || f.present) fs,
      by rw [if_neg hcond, Nat.add_comm]⟩

/-- The scanned prefix either contains both capabilities (counting the
incoming flags) or is the whole list. -/
theorem scanLength_reaches (l : List QueueFamily) : ∀ g p : Bool,
    ((g || (l.take (scanLength g p l)).any (fun f => f.graphics)) &&
      (p || (l.take (scanLength g p l)).any (fun f => f.present))) = true ∨
    scanLength g p l = l.length := by
  induction l with
  | nil => intro g p; right; rfl
  | cons f fs ih =>
    intro g p
    rw [scanLength]
    by_cases hcond : ((g || f.graphics) && (p || f.present)) = true
    · left
      rw [if_pos hcond]
      have ht : (f :: fs).take 1 = [f] := rfl
      rw [ht]
      simpa using hcond
    · rw [if_neg hcond]
      rw [Nat.add_comm 1 (scanLength (g || f.graphics) (p || f.present) fs),
        List.take_succ_cons]
      rcases ih (g || f.graphics) (p || f.present) with hleft | hright
      · left
        rw [List.any_cons, List.any_cons, ← Bool.or_assoc, ← Bool.or_assoc]
        exact hleft
      · right
        rw [hright, List.length_cons, Nat.add_comm]

/-- The prefix strictly shorter than the scanned one misses at least one
capability: the scan never runs past the point where both are resolved. -/
theorem scanLength_minimal (l : List QueueFamily) : ∀ g p : Bool,
    (g && p) = false →
    ((g || (l.take (scanLength g p l - 1)).any (fun f => f.graphics)) &&
      (p || (l.take (scanLength g p l - 1)).any (fun f => f.present))) =
      false := by
  induction l with
  | nil =>
    intro g p hgp
    simpa using hgp
  | cons f fs ih =>
    intro g p hgp
    rw [scanLength]
    by_cases hcond : ((g || f.graphics) && (p || f.present)) = true
    · rw [if_pos hcond]
      simpa using hgp
    · rw [if_neg hcond]
      have hcond' : ((g || f.graphics) && (p || f.present)) = false :=
        Bool.eq_false_iff.mpr hcond
      cases fs with
      | nil =>
        have hz : scanLength (g || f.graphics) (p || f.present) [] = 0 := rfl
        rw [hz]
        simpa using hgp
      | cons f2 fs2 =>
        obtain ⟨k, hk⟩ :=
          scanLength_cons_eq (g || f.graphics) (p || f.present) f2 fs2
        rw [hk]
        have hn : 1 + (k + 1) - 1 = k + 1 := by omega
        rw [hn, List.take_succ_cons]
        have := ih (g || f.graphics) (p || f.present) hcond'
        rw [hk] at this
        have hk1 : k + 1 - 1 = k := by omega
        rw [hk1] at this
        rw [List.any_cons, List.any_cons, ← Bool.or_assoc, ← Bool.or_assoc]
        exact this

/-- Claim C5: `findQueueFamilies` records, for each capability, the index of the
last matching family inside the scanned prefix (`-1` when none matches
there); the scanned prefix is the shortest one containing a
graphics-capable and a present-capable family, or the whole list when no
such prefix exists, so the scan stops as soon as both indices are resolved
and later matches up to that point overwrite earlier ones. -/
theorem findQueueFamilies_spec (q_families : List QueueFamily) :
    findQueueFamilies q_families =
      { gfx_family :=
          resolvedIdx (-1) 0
            (lastMatchIdx (fun f => f.graphics)
              (q_families.take (scanLength false false q_families))),
        present_family :=
          resolvedIdx (-1) 0
            (lastMatchIdx (fun f => f.present)
              (q_families.take (scanLength false false q_families))) } ∧
    (((q_families.take (scanLength false false q_families)).any
          (fun f => f.graphics) &&
        (q_families.take (scanLength false false q_families)).any
          (fun f => f.present)) = true ∨
      scanLength false false q_families = q_families.length) ∧
    ((q_families.take (scanLength false false q_families - 1)).any
        (fun f => f.graphics) &&
      (q_families.take (scanLength false false q_families - 1)).any
        (fun f => f.present)) = false := by
  refine ⟨?_, ?_, ?_⟩
  · rw [findQueueFamilies, findQueueFamiliesLoop_eq]
    norm_num
  · simpa using scanLength_reaches q_families false false
  · simpa using scanLength_minimal q_families false false rfl

/-! Device selection. -/

theorem sortedIncludes_nil_right (l : List String) :
    sortedIncludes l [] = true := by
  cases l <;> rfl

/-- On a `≤`-sorted list, `std::includes` with a singleton needle tests
membership. -/
theorem sortedIncludes_singleton (x : String) (l : List String)
    (hs : List.Sorted (· ≤ ·) l) :
    (sortedIncludes l [x] = true ↔ x ∈ l) := by
  induction l with
  | nil => simp [sortedIncludes]
  | cons a as ih =>
    rw [List.sorted_cons] at hs
    obtain ⟨ha, has⟩ := hs
    simp only [sortedIncludes]
    by_cases h1 : x < a
    · rw [if_pos h1]
      constructor
      · intro hfalse
        exact absurd hfalse (by decide)
      · intro hmem
        rcases List.mem_cons.mp hmem with rfl | hmm
        · exact absurd h1 (lt_irrefl x)
        · exact absurd h1 (not_lt.mpr (ha x hmm))
    · rw [if_neg h1]
      by_cases h2 : a < x
      · rw [if_pos h2, ih has]
        constructor
        · exact fun hmm => List.mem_cons_of_mem a hmm
        · intro hmem
          rcases List.mem_cons.mp hmem with rfl | hmm
          · exact absurd h2 (lt_irrefl x)
          · exact hmm
      · rw [if_neg h2]
        have hax : a = x := le_antisymm (le_of_not_lt h1) (le_of_not_lt h2)
        simp [sortedIncludes_nil_right, hax]

/-- `checkDeviceExtensionSupport` holds exactly when the (single) required
extension name occurs among the available names. -/
theorem checkDeviceExtensionSupport_iff (exts : List String) :
    checkDeviceExtensionSupport exts = true ↔
      VK_KHR_SWAPCHAIN_EXTENSION_NAME ∈ exts := by
  unfold checkDeviceExtensionSupport
  have hone : List.insertionSort (· ≤ ·) device_extensions =
      [VK_KHR_SWAPCHAIN_EXTENSION_NAME] := rfl
  rw [hone,
    sortedIncludes_singleton _ _ (List.sorted_insertionSort (· ≤ ·) exts)]
  exact List.mem_insertionSort _

/-- The multiset-subset condition on extension names reduces, for the
singleton required set, to membership of the swapchain extension. -/
theorem requiredExtensions_count_iff (exts : List String) :
    (∀ s : String, device_extensions.count s ≤ exts.count s) ↔
      VK_KHR_SWAPCHAIN_EXTENSION_NAME ∈ exts := by
  constructor
  · intro h
    have h1 := h VK_KHR_SWAPCHAIN_EXTENSION_NAME
    rw [show device_extensions.count VK_KHR_SWAPCHAIN_EXTENSION_NAME = 1 from
      by decide] at h1
    exact List.one_le_count_iff.mp h1
  · intro hmem s
    by_cases hx : s = VK_KHR_SWAPCHAIN_EXTENSION_NAME
    · subst hx
      rw [show device_extensions.count VK_KHR_SWAPCHAIN_EXTENSION_NAME = 1 from
        by decide]
      exact List.one_le_count_iff.mpr hmem
    · have h0 : device_extensions.count s = 0 := by
        apply List.count_eq_zero.mpr
        simp only [device_extensions, List.mem_singleton]
        intro heq
        exact hx heq
      rw [h0]
      exact Nat.zero_le _

/-- `isDeviceSuitable` agrees with the spec's three suitability
conditions. -/
theorem isDeviceSuitable_iff (device : PhysicalDevice) :
    isDeviceSuitable device = true ↔ suitableDeviceSpec device := by
  unfold isDeviceSuitable suitableDeviceSpec QueueFamilyIndices.isComplete
  simp only [Bool.and_eq_true, bne_iff_ne, ne_eq, Bool.not_eq_true',
    List.isEmpty_eq_false, checkDeviceExtensionSupport_iff,
    requiredExtensions_count_iff]
  tauto

theorem isDeviceSuitable_eq_false_iff (device : PhysicalDevice) :
    isDeviceSuitable device = false ↔ ¬ suitableDeviceSpec device := by
  rw [← isDeviceSuitable_iff]
  cases h : isDeviceSuitable device <;> simp

/-- C1: `pickPhysicalDevice` returns `some d` exactly when `d` satisfies
all three suitability conditions (resolved queue families, required
extensions available as a multiset subset, non-empty format and
present-mode lists) and `d` is the first such device in enumeration order:
every device enumerated before it fails at least one condition.  In
particular an unsuitable device is never selected, even when it is
enumerated first. -/
theorem pickPhysicalDevice_spec (devices : List PhysicalDevice)
    (d : PhysicalDevice) :
    pickPhysicalDevice devices = some d ↔
      suitableDeviceSpec d ∧
      ∃ pre post, devices = pre ++ d :: post ∧
        ∀ e ∈ pre, ¬ suitableDeviceSpec e := by
  unfold pickPhysicalDevice
  rw [List.find?_eq_some]
  simp only [Bool.not_eq_true', isDeviceSuitable_iff,
    isDeviceSuitable_eq_false_iff]

end VulkanTutorial
